import Mathlib

/-!
Shallow embedding of the license-validation service in `src/app.py`
(a Flask + SQLite application).

The SQLite table `licenses` is modelled as a `List LicenseRecord` in
physical row order (ascending rowid, i.e. insertion order; `UPDATE`
keeps a row in place and never changes its rowid).  Each HTTP handler
becomes a Lean function over that list:

* `validate_license`  — the public `/api/validate` handler, with the
  evaluation instant (`datetime.date.today()`) passed explicitly;
* `add_or_update_license` — the admin upsert handler's store mutation
  (INSERT, or UPDATE on a `sqlite3.IntegrityError` from the UNIQUE
  constraint on `license_key`);
* `deactivate_license` / `deactivate_license_response` — the admin
  deactivation handler's store mutation and its HTTP response body;
* `list_licenses` — the admin listing handler;
* `check_api_key` and the `*_endpoint` wrappers — the `X-API-KEY`
  header gate around the three admin handlers.

`parseDate` models CPython's `datetime.datetime.strptime(s, "%Y-%m-%d")`
followed by `.date()`: `%Y` matches exactly four digits, `%m` and `%d`
match one or two digits in range, the hyphens are literal, no
unconverted text may remain, and the resulting triple must be a real
calendar date with year at least 1 (else `ValueError`, which the
handler catches as a date-format error).
-/

/-- A calendar date, as CPython's `datetime.date` triple.  Comparison is
lexicographic on (year, month, day), as in Python. -/
structure Date where
  year : Nat
  month : Nat
  day : Nat
deriving DecidableEq, Repr

/-- Python's `a < b` on `datetime.date`: lexicographic order. -/
def Date.ltb (a b : Date) : Bool :=
  if a.year ≠ b.year then decide (a.year < b.year)
  else if a.month ≠ b.month then decide (a.month < b.month)
  else decide (a.day < b.day)

/-- Python's `a <= b` on `datetime.date`, via totality of the order. -/
def Date.leb (a b : Date) : Bool :=
  !(Date.ltb b a)

/-- A row of the `licenses` table.  `expiration_date` is a nullable TEXT
column (`none` = SQL NULL); `active` is an INTEGER column (the handlers
filter on `active = 1` and deactivation writes `0`). -/
structure LicenseRecord where
  id : Nat
  usuario : String
  license_key : String
  subscription_date : String
  expiration_date : Option String
  active : Int
deriving DecidableEq, Repr

/-- Split a character list on every occurrence of `c`, as Python's
`str.split` / `String.splitOn` does for a one-character separator
(structural recursion, so concrete inputs evaluate in the kernel). -/
def splitOnChar (c : Char) : List Char → List (List Char)
  | [] => [[]]
  | x :: xs =>
    match splitOnChar c xs with
    | [] => [[x]]
    | h :: t => if x = c then [] :: h :: t else (x :: h) :: t

/-- Digits of a decimal string to a number (callers check `Char.isDigit`
first). -/
def digitsToNat (l : List Char) : Nat :=
  l.foldl (fun n c => 10 * n + (c.toNat - 48)) 0

/-- Length of month `m` in year `y`, with the Gregorian leap rule, as
validated by `datetime.date`. -/
def monthDays (y m : Nat) : Nat :=
  if m = 2 then
    if y % 4 = 0 ∧ (y % 100 ≠ 0 ∨ y % 400 = 0) then 29 else 28
  else if m = 4 ∨ m = 6 ∨ m = 9 ∨ m = 11 then 30
  else 31

/-- `datetime.datetime.strptime(s, "%Y-%m-%d").date()`, `none` when the
call raises (bad shape, bad digits, out-of-range month or day, year 0). -/
def parseDate (s : String) : Option Date :=
  match splitOnChar '-' s.data with
  | [ys, ms, ds] =>
    if ys.length = 4 ∧ ys.all Char.isDigit ∧
       1 ≤ ms.length ∧ ms.length ≤ 2 ∧ ms.all Char.isDigit ∧
       1 ≤ ds.length ∧ ds.length ≤ 2 ∧ ds.all Char.isDigit then
      let y := digitsToNat ys
      let m := digitsToNat ms
      let d := digitsToNat ds
      if 1 ≤ y ∧ 1 ≤ m ∧ m ≤ 12 ∧ 1 ≤ d ∧ d ≤ monthDays y m then
        some ⟨y, m, d⟩
      else none
    else none
  | _ => none

/-- The tri-state outcome of `/api/validate` (plus the date-format fault,
which the handler returns with HTTP status 500).  `valid` echoes the
row's `usuario`, `subscription_date` and `expiration_date`, as the
handler's JSON body does. -/
inductive Outcome where
  | invalid
  | expired
  | dateFormatError
  | valid (usuario subscription_date : String) (expiration_date : Option String)
deriving DecidableEq, Repr

/-- `SELECT * FROM licenses WHERE license_key = ? AND active = 1` with
`fetchone()`: the first row in table order matching both conditions. -/
def findActiveByKey (store : List LicenseRecord) (k : String) : Option LicenseRecord :=
  store.find? (fun r => r.license_key == k && r.active == 1)

/-- The `/api/validate` handler body after JSON extraction: look the key
up among active rows; missing row is invalid; a truthy
`expiration_date` (non-NULL and non-empty, by Python truthiness) is
parsed, a parse failure is the date-format fault, `today > exp_date`
is expired; otherwise the license is valid. -/
def validate_license (store : List LicenseRecord) (license_key : String)
    (today : Date) : Outcome :=
  match findActiveByKey store license_key with
  | none => Outcome.invalid
  | some row =>
    match row.expiration_date with
    | none => Outcome.valid row.usuario row.subscription_date row.expiration_date
    | some s =>
      if s = "" then Outcome.valid row.usuario row.subscription_date row.expiration_date
      else
        match parseDate s with
        | none => Outcome.dateFormatError
        | some exp_date =>
          if Date.ltb exp_date today then Outcome.expired
          else Outcome.valid row.usuario row.subscription_date row.expiration_date

/-- The JSON body of the admin upsert request (all five fields are
required by the handler). -/
structure UpsertRequest where
  usuario : String
  license_key : String
  subscription_date : String
  expiration_date : Option String
  active : Int
deriving DecidableEq, Repr

/-- Which branch the upsert handler took: a fresh INSERT, or the UPDATE
run after `sqlite3.IntegrityError` ("Licencia agregada" vs
"Licencia actualizada"). -/
inductive UpsertResult where
  | inserted
  | updated
deriving DecidableEq, Repr

/-- Whether some row has this `license_key` (the UNIQUE constraint's
conflict test for the attempted INSERT). -/
def keyExists (store : List LicenseRecord) (k : String) : Bool :=
  store.any (fun r => r.license_key == k)

/-- The rowid AUTOINCREMENT assigns to the next INSERT: one more than the
largest id ever used; with no DELETE in the program, one more than the
largest current id (1 on an empty table). -/
def nextId (store : List LicenseRecord) : Nat :=
  (store.map (fun r => r.id)).foldr Nat.max 0 + 1

/-- The row an INSERT or UPDATE writes from the request, given the id it
keeps or receives. -/
def recOf (i : Nat) (req : UpsertRequest) : LicenseRecord :=
  { id := i, usuario := req.usuario, license_key := req.license_key,
    subscription_date := req.subscription_date,
    expiration_date := req.expiration_date, active := req.active }

/-- The admin upsert handler's store mutation: try
`INSERT INTO licenses (usuario, license_key, subscription_date,
expiration_date, active) VALUES (...)`; on the UNIQUE violation
(`sqlite3.IntegrityError`), run `UPDATE licenses SET usuario = ?,
subscription_date = ?, expiration_date = ?, active = ? WHERE
license_key = ?` instead (the id column is untouched).  Returns the new
table and which branch ran. -/
def add_or_update_license (store : List LicenseRecord) (req : UpsertRequest) :
    List LicenseRecord × UpsertResult :=
  if keyExists store req.license_key then
    (store.map (fun r =>
      if r.license_key == req.license_key then recOf r.id req else r),
     UpsertResult.updated)
  else
    (store ++ [recOf (nextId store) req], UpsertResult.inserted)

/-- `UPDATE licenses SET active = 0 WHERE license_key = ?`: every
matching row (at most one, by uniqueness) gets `active = 0`; all other
columns and rows are untouched.  Matching zero rows is not an error. -/
def deactivate_license (store : List LicenseRecord) (k : String) :
    List LicenseRecord :=
  store.map (fun r => if r.license_key == k then { r with active := 0 } else r)

/-- The JSON body the deactivation handler returns. -/
structure DeactivateResponse where
  success : Bool
  message : String
deriving DecidableEq, Repr

/-- The deactivation handler's response: after the UPDATE it always
returns `{"success": true, "message": "Licencia desactivada"}` with
status 200 — it never inspects how many rows matched. -/
def deactivate_license_response (store : List LicenseRecord) (k : String) :
    DeactivateResponse :=
  { success := true, message := "Licencia desactivada" }

/-- The admin listing handler: `SELECT * FROM licenses` with no WHERE
and no ORDER BY — every row, active or not, in physical table order. -/
def list_licenses (store : List LicenseRecord) : List LicenseRecord :=
  store

/-- `check_api_key`: the `X-API-KEY` header (absent = `none`) must equal
the configured `ADMIN_API_KEY` exactly. -/
def check_api_key (supplied : Option String) (admin_api_key : String) : Bool :=
  supplied == some admin_api_key

/-- An admin handler's result: the 401 "No autorizado" short-circuit, or
the gated operation's own result. -/
inductive Gated (α : Type) where
  | unauthorized
  | ok (a : α)
deriving DecidableEq, Repr

/-- The full admin upsert handler: the API-key check runs first; on
failure the handler returns 401 before touching the database. -/
def add_or_update_endpoint (admin_api_key : String) (supplied : Option String)
    (store : List LicenseRecord) (req : UpsertRequest) :
    List LicenseRecord × Gated UpsertResult :=
  if check_api_key supplied admin_api_key then
    ((add_or_update_license store req).1,
     Gated.ok (add_or_update_license store req).2)
  else (store, Gated.unauthorized)

/-- The full admin deactivation handler: API-key check first, then the
UPDATE and the constant success response. -/
def deactivate_endpoint (admin_api_key : String) (supplied : Option String)
    (store : List LicenseRecord) (k : String) :
    List LicenseRecord × Gated DeactivateResponse :=
  if check_api_key supplied admin_api_key then
    (deactivate_license store k, Gated.ok (deactivate_license_response store k))
  else (store, Gated.unauthorized)

/-- The full admin listing handler: API-key check first, then the
read-only SELECT. -/
def list_endpoint (admin_api_key : String) (supplied : Option String)
    (store : List LicenseRecord) :
    List LicenseRecord × Gated (List LicenseRecord) :=
  if check_api_key supplied admin_api_key then
    (store, Gated.ok (list_licenses store))
  else (store, Gated.unauthorized)

/-- The public `/api/validate` handler as deployed: it receives the same
headers as every request but never reads `X-API-KEY`, so the admin
gate plays no part in it. -/
def validate_endpoint (admin_api_key : String) (supplied : Option String)
    (store : List LicenseRecord) (license_key : String) (today : Date) :
    Outcome :=
  validate_license store license_key today

/-! Sample rows.  `sample1` is the first example row `init_db` inserts;
the others vary its fields for concrete checks. -/

/-- The first example row inserted by `init_db`. -/
def sample1 : LicenseRecord :=
  { id := 1, usuario := "usuario1", license_key := "LICENSE-1234-5678",
    subscription_date := "2023-03-03", expiration_date := some "2023-12-31",
    active := 1 }

/-- `sample1` after deactivation. -/
def sample1_deactivated : LicenseRecord :=
  { sample1 with active := 0 }

/-- An active row with no expiration date (SQL NULL). -/
def sampleNoExp : LicenseRecord :=
  { id := 2, usuario := "usuario2", license_key := "LICENSE-NO-EXP",
    subscription_date := "2023-01-01", expiration_date := none, active := 1 }

/-- An active row whose stored expiration date is not in YYYY-MM-DD form. -/
def sampleBadDate : LicenseRecord :=
  { id := 3, usuario := "usuario3", license_key := "LICENSE-BAD-DATE",
    subscription_date := "2023-01-01", expiration_date := some "31-12-2023",
    active := 1 }

/-- An active row whose stored expiration date is the empty string. -/
def sampleEmptyExp : LicenseRecord :=
  { id := 4, usuario := "usuario4", license_key := "LICENSE-EMPTY-EXP",
    subscription_date := "2023-01-01", expiration_date := some "",
    active := 1 }

theorem Date.ltb_irrefl (d : Date) : Date.ltb d d = false := by
  simp [Date.ltb]

/-- C1: for a key whose active row stores an expiration date that parses
as the calendar date `d`, validation returns the valid outcome (echoing
usuario, subscription date and expiration date) whenever `now ≤ d` — in
particular exactly at `now = d` — and the expired outcome whenever
`now > d`. -/
theorem C1_expiration_boundary (store : List LicenseRecord) (k : String)
    (row : LicenseRecord) (s : String) (d now : Date)
    (hfind : findActiveByKey store k = some row)
    (hexp : row.expiration_date = some s)
    (hparse : parseDate s = some d) :
    (Date.leb now d = true →
      validate_license store k now =
        Outcome.valid row.usuario row.subscription_date (some s)) ∧
    (Date.ltb d now = true → validate_license store k now = Outcome.expired) ∧
    (now = d →
      validate_license store k now =
        Outcome.valid row.usuario row.subscription_date (some s)) := by
  have hs : s ≠ "" := by
    intro h
    rw [h] at hparse
    rw [show parseDate "" = none by decide] at hparse
    exact Option.noConfusion hparse
  have hbody : validate_license store k now =
      if Date.ltb d now then Outcome.expired
      else Outcome.valid row.usuario row.subscription_date (some s) := by
    simp [validate_license, hfind, hexp, hs, hparse]
  refine ⟨?_, ?_, ?_⟩
  · intro h
    have hlt : Date.ltb d now = false := by simpa [Date.leb] using h
    rw [hbody, hlt]
    simp
  · intro h
    rw [hbody, h]
    simp
  · intro h
    rw [hbody, h, Date.ltb_irrefl]
    simp

theorem C1_expiration_boundary_witness :
    validate_license [sample1] "LICENSE-1234-5678" ⟨2023, 6, 1⟩ =
        Outcome.valid "usuario1" "2023-03-03" (some "2023-12-31") ∧
    validate_license [sample1] "LICENSE-1234-5678" ⟨2024, 1, 1⟩ =
        Outcome.expired ∧
    validate_license [sample1] "LICENSE-1234-5678" ⟨2023, 12, 31⟩ =
        Outcome.valid "usuario1" "2023-03-03" (some "2023-12-31") := by
  have h1 := C1_expiration_boundary [sample1] "LICENSE-1234-5678" sample1
      "2023-12-31" ⟨2023, 12, 31⟩ ⟨2023, 6, 1⟩ rfl rfl rfl
  have h2 := C1_expiration_boundary [sample1] "LICENSE-1234-5678" sample1
      "2023-12-31" ⟨2023, 12, 31⟩ ⟨2024, 1, 1⟩ rfl rfl rfl
  have h3 := C1_expiration_boundary [sample1] "LICENSE-1234-5678" sample1
      "2023-12-31" ⟨2023, 12, 31⟩ ⟨2023, 12, 31⟩ rfl rfl rfl
  exact ⟨h1.1 (by decide), h2.2.1 (by decide), h3.2.2 rfl⟩

/-- C2: a key with no row in the table, or whose rows with that key are
all inactive, validates as the invalid outcome at every evaluation
instant. -/
theorem C2_inactive_or_missing (store : List LicenseRecord) (k : String)
    (now : Date)
    (h : ∀ r ∈ store, r.license_key = k → r.active ≠ 1) :
    validate_license store k now = Outcome.invalid := by
  have hfind : findActiveByKey store k = none := by
    rw [findActiveByKey, List.find?_eq_none]
    intro r hr hp
    rw [Bool.and_eq_true, beq_iff_eq, beq_iff_eq] at hp
    exact h r hr hp.1 hp.2
  simp [validate_license, hfind]

theorem C2_inactive_or_missing_witness :
    validate_license [sample1_deactivated] "LICENSE-1234-5678" ⟨2023, 6, 1⟩ =
        Outcome.invalid ∧
    validate_license [] "NO-SUCH-KEY" ⟨2023, 6, 1⟩ = Outcome.invalid := by
  constructor
  · exact C2_inactive_or_missing [sample1_deactivated] "LICENSE-1234-5678"
      ⟨2023, 6, 1⟩ (by decide)
  · exact C2_inactive_or_missing [] "NO-SUCH-KEY" ⟨2023, 6, 1⟩ (by decide)

/-- C4: an active row whose stored expiration date is present, non-empty
and unparseable validates as the date-format fault at every evaluation
instant, never as invalid, expired or valid. -/
theorem C4_unparseable_expiration (store : List LicenseRecord) (k : String)
    (row : LicenseRecord) (s : String) (now : Date)
    (hfind : findActiveByKey store k = some row)
    (hexp : row.expiration_date = some s)
    (hne : s ≠ "")
    (hparse : parseDate s = none) :
    validate_license store k now = Outcome.dateFormatError := by
  simp [validate_license, hfind, hexp, hne, hparse]

theorem C4_unparseable_expiration_witness :
    validate_license [sampleBadDate] "LICENSE-BAD-DATE" ⟨2023, 6, 1⟩ =
      Outcome.dateFormatError :=
  C4_unparseable_expiration [sampleBadDate] "LICENSE-BAD-DATE" sampleBadDate
    "31-12-2023" ⟨2023, 6, 1⟩ (by decide) rfl (by decide) (by decide)

/-- C8: an active row whose expiration date column is NULL validates as
the valid outcome at every evaluation instant, echoing the row's
usuario, subscription date and absent expiration date. -/
theorem C8_absent_expiration (store : List LicenseRecord) (k : String)
    (row : LicenseRecord) (now : Date)
    (hfind : findActiveByKey store k = some row)
    (hexp : row.expiration_date = none) :
    validate_license store k now =
      Outcome.valid row.usuario row.subscription_date none := by
  simp [validate_license, hfind, hexp]

theorem C8_absent_expiration_witness :
    validate_license [sampleNoExp] "LICENSE-NO-EXP" ⟨2099, 12, 31⟩ =
      Outcome.valid "usuario2" "2023-01-01" none :=
  C8_absent_expiration [sampleNoExp] "LICENSE-NO-EXP" sampleNoExp
    ⟨2099, 12, 31⟩ (by decide) rfl

/-- C10: an active row whose expiration date column holds the empty
string validates as the valid outcome at every evaluation instant
(Python truthiness sends `""` down the no-expiration branch, so the
date parser and its error path are never reached). -/
theorem C10_empty_string_expiration (store : List LicenseRecord) (k : String)
    (row : LicenseRecord) (now : Date)
    (hfind : findActiveByKey store k = some row)
    (hexp : row.expiration_date = some "") :
    validate_license store k now =
      Outcome.valid row.usuario row.subscription_date (some "") := by
  simp [validate_license, hfind, hexp]

theorem C10_empty_string_expiration_witness :
    validate_license [sampleEmptyExp] "LICENSE-EMPTY-EXP" ⟨2099, 12, 31⟩ =
      Outcome.valid "usuario4" "2023-01-01" (some "") :=
  C10_empty_string_expiration [sampleEmptyExp] "LICENSE-EMPTY-EXP"
    sampleEmptyExp ⟨2099, 12, 31⟩ (by decide) rfl

theorem zip_map_self {α : Type} (f : α → α) (l : List α) :
    l.zip (l.map f) = l.map (fun x => (x, f x)) := by
  induction l with
  | nil => rfl
  | cons x xs ih => simp [ih]

/-- C9: deactivation is idempotent on the table, and it is a pure frame
update — the table keeps its length, a row whose key matches keeps
every column except `active` (which becomes 0), and every other row is
untouched. -/
theorem C9_deactivate_idempotent_frame (store : List LicenseRecord)
    (k : String) :
    deactivate_license (deactivate_license store k) k =
      deactivate_license store k ∧
    (deactivate_license store k).length = store.length ∧
    ∀ p ∈ store.zip (deactivate_license store k),
      (p.1.license_key = k → p.2 = { p.1 with active := 0 }) ∧
      (p.1.license_key ≠ k → p.2 = p.1) := by
  refine ⟨?_, ?_, ?_⟩
  · simp only [deactivate_license, List.map_map]
    apply List.map_congr_left
    intro r _
    by_cases h : r.license_key = k
    · simp [Function.comp, h]
    · simp [Function.comp, h]
  · rw [deactivate_license, List.length_map]
  · intro p hp
    rw [show deactivate_license store k =
        store.map (fun x =>
          if x.license_key == k then { x with active := 0 } else x) from rfl,
      zip_map_self] at hp
    obtain ⟨r, hr, rfl⟩ := List.mem_map.mp hp
    by_cases h : r.license_key = k
    · exact ⟨fun _ => by simp [h], fun hn => absurd h hn⟩
    · exact ⟨fun hk => absurd hk h, fun _ => by simp [h]⟩

theorem C9_deactivate_idempotent_frame_witness :
    deactivate_license (deactivate_license [sample1, sampleNoExp]
        "LICENSE-1234-5678") "LICENSE-1234-5678" =
      deactivate_license [sample1, sampleNoExp] "LICENSE-1234-5678" ∧
    (deactivate_license [sample1, sampleNoExp] "LICENSE-1234-5678").length =
      ([sample1, sampleNoExp] : List LicenseRecord).length ∧
    ∀ p ∈ ([sample1, sampleNoExp] : List LicenseRecord).zip
        (deactivate_license [sample1, sampleNoExp] "LICENSE-1234-5678"),
      (p.1.license_key = "LICENSE-1234-5678" → p.2 = { p.1 with active := 0 }) ∧
      (p.1.license_key ≠ "LICENSE-1234-5678" → p.2 = p.1) :=
  C9_deactivate_idempotent_frame [sample1, sampleNoExp] "LICENSE-1234-5678"

/-- C6: with a supplied credential different from the configured secret
(including an absent header), each of the three admin handlers returns
the unauthorized outcome and leaves the table exactly as it was, and the
public validation handler ignores the credential entirely. -/
theorem C6_admin_gate (admin_api_key : String) (supplied : Option String)
    (store : List LicenseRecord) (req : UpsertRequest) (k lk : String)
    (today : Date)
    (h : supplied ≠ some admin_api_key) :
    add_or_update_endpoint admin_api_key supplied store req =
      (store, Gated.unauthorized) ∧
    deactivate_endpoint admin_api_key supplied store k =
      (store, Gated.unauthorized) ∧
    list_endpoint admin_api_key supplied store =
      (store, Gated.unauthorized) ∧
    validate_endpoint admin_api_key supplied store lk today =
      validate_license store lk today := by
  have hc : check_api_key supplied admin_api_key = false := by
    rw [check_api_key, beq_eq_false_iff_ne]
    exact h
  refine ⟨?_, ?_, ?_, rfl⟩
  · rw [add_or_update_endpoint, hc]
    simp
  · rw [deactivate_endpoint, hc]
    simp
  · rw [list_endpoint, hc]
    simp

theorem C6_admin_gate_witness :
    add_or_update_endpoint "clave_secreta_por_defecto" (some "wrong-secret")
        [sample1] ⟨"u9", "K9", "2024-01-01", none, 1⟩ =
      ([sample1], Gated.unauthorized) ∧
    deactivate_endpoint "clave_secreta_por_defecto" (some "wrong-secret")
        [sample1] "LICENSE-1234-5678" =
      ([sample1], Gated.unauthorized) ∧
    list_endpoint "clave_secreta_por_defecto" (some "wrong-secret")
        [sample1] =
      ([sample1], Gated.unauthorized) ∧
    validate_endpoint "clave_secreta_por_defecto" (some "wrong-secret")
        [sample1] "LICENSE-1234-5678" ⟨2023, 6, 1⟩ =
      validate_license [sample1] "LICENSE-1234-5678" ⟨2023, 6, 1⟩ :=
  C6_admin_gate "clave_secreta_por_defecto" (some "wrong-secret") [sample1]
    ⟨"u9", "K9", "2024-01-01", none, 1⟩ "LICENSE-1234-5678"
    "LICENSE-1234-5678" ⟨2023, 6, 1⟩ (by decide)

/-- C5 as stated fails on this code: the deactivation handler's response
body is the same constant whether or not a row with the key exists, so
no reading of the response can recover a found/not-found indicator. -/
theorem C5_counterexample :
    ¬ ∃ f : DeactivateResponse → Bool,
      ∀ (store : List LicenseRecord) (k : String),
        f (deactivate_license_response store k) = keyExists store k := by
  rintro ⟨f, hf⟩
  have h1 := hf [sample1] "LICENSE-1234-5678"
  have h2 := hf [] "LICENSE-1234-5678"
  rw [show keyExists [sample1] "LICENSE-1234-5678" = true by decide] at h1
  rw [show keyExists [] "LICENSE-1234-5678" = false by decide] at h2
  rw [show deactivate_license_response [sample1] "LICENSE-1234-5678" =
      deactivate_license_response [] "LICENSE-1234-5678" from rfl] at h1
  rw [h2] at h1
  exact Bool.false_ne_true h1

/-- C5 amended: deactivation never fails on a nonexistent key — the
table is simply left unchanged — but the handler's output is the
constant success body, which reports nothing about whether a matching
record was found. -/
theorem C5_deactivate_response (store : List LicenseRecord) (k : String) :
    deactivate_license_response store k =
      { success := true, message := "Licencia desactivada" } ∧
    (keyExists store k = false → deactivate_license store k = store) := by
  refine ⟨rfl, fun h => ?_⟩
  have h' := List.any_eq_false.mp h
  have hmap : store.map (fun r =>
      if r.license_key == k then { r with active := 0 } else r) =
      store.map id :=
    List.map_congr_left (fun r hr => by
      have hb : (r.license_key == k) = false := by simpa using h' r hr
      simp [hb])
  rw [deactivate_license, hmap, List.map_id]

theorem C5_deactivate_response_witness :
    deactivate_license_response [sample1] "NO-SUCH-KEY" =
      { success := true, message := "Licencia desactivada" } ∧
    deactivate_license [sample1] "NO-SUCH-KEY" = [sample1] :=
  ⟨(C5_deactivate_response [sample1] "NO-SUCH-KEY").1,
   (C5_deactivate_response [sample1] "NO-SUCH-KEY").2 (by decide)⟩

/-- A store mutation of the service: the admin upsert or the admin
deactivation (validation and listing never write). -/
inductive StoreOp where
  | upsert (req : UpsertRequest)
  | deactivate (k : String)
deriving DecidableEq, Repr

/-- Run one mutation against the table. -/
def applyOp (store : List LicenseRecord) : StoreOp → List LicenseRecord
  | StoreOp.upsert req => (add_or_update_license store req).1
  | StoreOp.deactivate k => deactivate_license store k

/-- Run a sequence of mutations in order. -/
def applyOps (store : List LicenseRecord) (ops : List StoreOp) :
    List LicenseRecord :=
  ops.foldl applyOp store

/-- The table's rows are in strictly ascending id (rowid) order —
SQLite's physical row order for this table, and the order a bare
`SELECT *` walks. -/
def IdsSorted (store : List LicenseRecord) : Prop :=
  (store.map (fun r => r.id)).Pairwise (fun a b => a < b)

theorem le_foldr_max (l : List Nat) (a : Nat) (ha : a ∈ l) :
    a ≤ l.foldr Nat.max 0 := by
  induction l with
  | nil => cases ha
  | cons x xs ih =>
    rcases List.mem_cons.mp ha with h | h
    · rw [List.foldr_cons, h]
      exact Nat.le_max_left x (xs.foldr Nat.max 0)
    · rw [List.foldr_cons]
      exact Nat.le_trans (ih h) (Nat.le_max_right x (xs.foldr Nat.max 0))

theorem ids_map_preserved (store : List LicenseRecord)
    (f : LicenseRecord → LicenseRecord) (hf : ∀ r, (f r).id = r.id) :
    (store.map f).map (fun r => r.id) = store.map (fun r => r.id) := by
  rw [List.map_map]
  exact List.map_congr_left (fun r _ => hf r)

theorem idsSorted_applyOp (store : List LicenseRecord) (op : StoreOp)
    (h : IdsSorted store) : IdsSorted (applyOp store op) := by
  cases op with
  | deactivate k =>
    show IdsSorted (deactivate_license store k)
    have hf : ∀ r : LicenseRecord,
        ((if r.license_key == k then { r with active := 0 } else r) :
          LicenseRecord).id = r.id := by
      intro r
      rcases Bool.eq_false_or_eq_true (r.license_key == k) with hb | hb <;>
        simp [hb]
    rw [IdsSorted, deactivate_license, ids_map_preserved store _ hf]
    exact h
  | upsert req =>
    show IdsSorted ((add_or_update_license store req).1)
    rw [add_or_update_license]
    by_cases hk : keyExists store req.license_key
    · rw [if_pos hk]
      have hf : ∀ r : LicenseRecord,
          ((if r.license_key == req.license_key then recOf r.id req else r) :
            LicenseRecord).id = r.id := by
        intro r
        rcases Bool.eq_false_or_eq_true (r.license_key == req.license_key)
          with hb | hb <;> simp [hb, recOf]
      rw [IdsSorted, ids_map_preserved store _ hf]
      exact h
    · rw [if_neg hk]
      rw [IdsSorted, List.map_append]
      rw [List.pairwise_append]
      refine ⟨h, List.pairwise_singleton _ _, ?_⟩
      intro a ha b hb
      rw [show ([recOf (nextId store) req].map (fun r => r.id)) =
          [nextId store] from rfl] at hb
      rw [List.mem_singleton] at hb
      rw [hb, nextId]
      exact Nat.lt_succ_of_le (le_foldr_max _ a ha)

theorem idsSorted_applyOps (store : List LicenseRecord) (ops : List StoreOp)
    (h : IdsSorted store) : IdsSorted (applyOps store ops) := by
  induction ops generalizing store with
  | nil => exact h
  | cons op rest ih => exact ih (applyOp store op) (idsSorted_applyOp store op h)

/-- C7: the admin listing returns the whole table — every row, whatever
its `active` value, in table order — and on any table the service's
mutations can produce from an id-sorted table (the empty initial table
included) that order is strictly ascending id: a stable, total,
deterministic order, identical on every call at the same state. -/
theorem C7_list_all (store0 : List LicenseRecord) (ops : List StoreOp)
    (h : IdsSorted store0) :
    list_licenses (applyOps store0 ops) = applyOps store0 ops ∧
    (∀ r ∈ applyOps store0 ops, r ∈ list_licenses (applyOps store0 ops)) ∧
    IdsSorted (list_licenses (applyOps store0 ops)) :=
  ⟨rfl, fun _ hr => hr, idsSorted_applyOps store0 ops h⟩

/-- A sample mutation run: two inserts and a deactivation. -/
def opsSample : List StoreOp :=
  [StoreOp.upsert ⟨"u1", "K1", "2023-01-01", none, 1⟩,
   StoreOp.upsert ⟨"u2", "K2", "2023-02-02", some "2024-01-01", 1⟩,
   StoreOp.deactivate "K1"]

theorem C7_list_all_witness :
    IdsSorted [] ∧
    (list_licenses (applyOps [] opsSample) = applyOps [] opsSample ∧
     (∀ r ∈ applyOps [] opsSample, r ∈ list_licenses (applyOps [] opsSample)) ∧
     IdsSorted (list_licenses (applyOps [] opsSample))) :=
  ⟨List.Pairwise.nil, C7_list_all [] opsSample List.Pairwise.nil⟩

/-- Run a sequence of upsert requests against the table, recording each
call's branch report ("agregada" vs "actualizada") in order. -/
def upsertRun : List LicenseRecord → List UpsertRequest →
    List LicenseRecord × List UpsertResult
  | store, [] => (store, [])
  | store, req :: rest =>
    let step := add_or_update_license store req
    let next := upsertRun step.1 rest
    (next.1, step.2 :: next.2)

theorem upsert_insert (store : List LicenseRecord) (req : UpsertRequest)
    (h : keyExists store req.license_key = false) :
    add_or_update_license store req =
      (store ++ [recOf (nextId store) req], UpsertResult.inserted) := by
  rw [add_or_update_license, h]
  simp

theorem filter_keyExists_false (store : List LicenseRecord) (k : String)
    (h : keyExists store k = false) :
    store.filter (fun r => r.license_key == k) = [] :=
  List.filter_eq_nil_iff.mpr (List.any_eq_false.mp h)

theorem keyExists_of_filter (store : List LicenseRecord) (k : String)
    (old : LicenseRecord)
    (h : store.filter (fun r => r.license_key == k) = [old]) :
    keyExists store k = true := by
  rw [keyExists, List.any_eq_true]
  have hm : old ∈ store.filter (fun r => r.license_key == k) := by
    rw [h]
    exact List.mem_singleton_self old
  have hf := List.mem_filter.mp hm
  exact ⟨old, hf.1, hf.2⟩

theorem upsert_update_filter (store : List LicenseRecord)
    (req : UpsertRequest) (k : String) (old : LicenseRecord)
    (hkey : req.license_key = k)
    (hfil : store.filter (fun r => r.license_key == k) = [old]) :
    (add_or_update_license store req).2 = UpsertResult.updated ∧
    ((add_or_update_license store req).1).filter
        (fun r => r.license_key == k) = [recOf old.id req] := by
  subst hkey
  have hk := keyExists_of_filter store req.license_key old hfil
  have h1 : add_or_update_license store req =
      (store.map (fun r =>
        if r.license_key == req.license_key then recOf r.id req else r),
       UpsertResult.updated) := by
    rw [add_or_update_license, hk]
    simp
  refine ⟨by rw [h1], ?_⟩
  rw [h1]
  show ((store.map (fun r =>
      if r.license_key == req.license_key then recOf r.id req else r)).filter
      (fun r => r.license_key == req.license_key)) = [recOf old.id req]
  rw [List.filter_map]
  have hpf : store.filter ((fun r => r.license_key == req.license_key) ∘
      (fun r => if r.license_key == req.license_key then recOf r.id req
                else r)) =
      store.filter (fun r => r.license_key == req.license_key) := by
    apply List.filter_congr
    intro r hr
    show ((if (r.license_key == req.license_key) = true then recOf r.id req
        else r).license_key == req.license_key) =
      (r.license_key == req.license_key)
    rcases Bool.eq_false_or_eq_true (r.license_key == req.license_key)
      with hb | hb
    · rw [if_pos hb, hb]
      exact beq_self_eq_true req.license_key
    · rw [if_neg (show ¬(r.license_key == req.license_key) = true by
        rw [hb]; exact Bool.false_ne_true)]
  rw [hpf, hfil]
  have hocond : (old.license_key == req.license_key) = true := by
    have hm : old ∈ store.filter (fun r => r.license_key == req.license_key) := by
      rw [hfil]
      exact List.mem_singleton_self old
    exact (List.mem_filter.mp hm).2
  simp only [List.map_cons, List.map_nil]
  rw [if_pos hocond]

theorem upsertRun_updates (k : String) (reqs : List UpsertRequest) :
    ∀ (store : List LicenseRecord) (old : LicenseRecord),
      store.filter (fun r => r.license_key == k) = [old] →
      (∀ r ∈ reqs, r.license_key = k) →
      (upsertRun store reqs).2 = reqs.map (fun _ => UpsertResult.updated) ∧
      ((upsertRun store reqs).1).filter (fun r => r.license_key == k) =
        [reqs.foldl (fun acc r => recOf acc.id r) old] := by
  induction reqs with
  | nil =>
    intro store old hfil _
    exact ⟨rfl, by simpa using hfil⟩
  | cons req rest ih =>
    intro store old hfil hall
    have hreq : req.license_key = k := hall req (List.mem_cons_self req rest)
    obtain ⟨hbr, hfil'⟩ := upsert_update_filter store req k old hreq hfil
    have hrest : ∀ r ∈ rest, r.license_key = k := fun r hr =>
      hall r (List.mem_cons_of_mem req hr)
    obtain ⟨ih2, ih1⟩ := ih (add_or_update_license store req).1
      (recOf old.id req) hfil' hrest
    constructor
    · show (add_or_update_license store req).2 ::
          (upsertRun (add_or_update_license store req).1 rest).2 =
        UpsertResult.updated :: rest.map (fun _ => UpsertResult.updated)
      rw [hbr, ih2]
    · show ((upsertRun (add_or_update_license store req).1 rest).1).filter
          (fun r => r.license_key == k) =
        [(req :: rest).foldl (fun acc r => recOf acc.id r) old]
      rw [ih1]
      rfl

theorem foldl_recOf_getLastD (rest : List UpsertRequest) :
    ∀ (old : LicenseRecord) (req0 : UpsertRequest), recOf old.id req0 = old →
      rest.foldl (fun acc r => recOf acc.id r) old =
        recOf old.id (rest.getLastD req0) := by
  induction rest with
  | nil =>
    intro old req0 h
    exact h.symm
  | cons r1 t ih =>
    intro old req0 h
    rw [List.foldl_cons, List.getLastD_cons]
    rw [ih (recOf old.id r1) r1 rfl]
    rfl

/-- C3: starting from a table with no row for the key, a nonempty run of
upserts all sharing that key reports the insert branch on the first
call and the update branch on every later one, and leaves exactly one
row with that key in the table: its usuario, subscription date,
expiration date and active flag are the last request's, and its id is
the one assigned by the first insert. -/
theorem C3_upsert_sequence (store0 : List LicenseRecord) (k : String)
    (req0 : UpsertRequest) (rest : List UpsertRequest)
    (h0 : keyExists store0 k = false)
    (hall : ∀ r ∈ req0 :: rest, r.license_key = k) :
    (upsertRun store0 (req0 :: rest)).2 =
      UpsertResult.inserted :: rest.map (fun _ => UpsertResult.updated) ∧
    ((upsertRun store0 (req0 :: rest)).1).filter
        (fun r => r.license_key == k) =
      [recOf (nextId store0) (rest.getLastD req0)] := by
  have hk0 : req0.license_key = k := hall req0 (List.mem_cons_self req0 rest)
  have hins : add_or_update_license store0 req0 =
      (store0 ++ [recOf (nextId store0) req0], UpsertResult.inserted) := by
    apply upsert_insert
    rw [hk0]
    exact h0
  have hfil1 : (store0 ++ [recOf (nextId store0) req0]).filter
      (fun r => r.license_key == k) = [recOf (nextId store0) req0] := by
    rw [List.filter_append, filter_keyExists_false store0 k h0]
    simp [recOf, hk0]
  have hrest : ∀ r ∈ rest, r.license_key = k := fun r hr =>
    hall r (List.mem_cons_of_mem req0 hr)
  obtain ⟨h2, h1⟩ := upsertRun_updates k rest
    (store0 ++ [recOf (nextId store0) req0]) (recOf (nextId store0) req0)
    hfil1 hrest
  constructor
  · show (add_or_update_license store0 req0).2 ::
        (upsertRun (add_or_update_license store0 req0).1 rest).2 =
      UpsertResult.inserted :: rest.map (fun _ => UpsertResult.updated)
    rw [hins]
    show UpsertResult.inserted ::
        (upsertRun (store0 ++ [recOf (nextId store0) req0]) rest).2 =
      UpsertResult.inserted :: rest.map (fun _ => UpsertResult.updated)
    rw [h2]
  · show ((upsertRun (add_or_update_license store0 req0).1 rest).1).filter
        (fun r => r.license_key == k) =
      [recOf (nextId store0) (rest.getLastD req0)]
    rw [hins]
    show ((upsertRun (store0 ++ [recOf (nextId store0) req0]) rest).1).filter
        (fun r => r.license_key == k) =
      [recOf (nextId store0) (rest.getLastD req0)]
    rw [h1, foldl_recOf_getLastD rest (recOf (nextId store0) req0) req0 rfl]
    rfl

theorem C3_upsert_sequence_witness :
    (upsertRun [sampleNoExp]
        [⟨"u1", "K1", "2023-01-01", none, 1⟩,
         ⟨"u2", "K1", "2023-02-02", some "2024-12-31", 0⟩]).2 =
      [UpsertResult.inserted, UpsertResult.updated] ∧
    ((upsertRun [sampleNoExp]
        [⟨"u1", "K1", "2023-01-01", none, 1⟩,
         ⟨"u2", "K1", "2023-02-02", some "2024-12-31", 0⟩]).1).filter
        (fun r => r.license_key == "K1") =
      [{ id := 3, usuario := "u2", license_key := "K1",
         subscription_date := "2023-02-02",
         expiration_date := some "2024-12-31", active := 0 }] := by
  have h := C3_upsert_sequence [sampleNoExp] "K1"
    ⟨"u1", "K1", "2023-01-01", none, 1⟩
    [⟨"u2", "K1", "2023-02-02", some "2024-12-31", 0⟩]
    (by decide) (by decide)
  exact ⟨h.1, by rw [h.2]; rfl⟩
